import Mathlib

/-!
Verification of the `AutoSyncService` class of `src/extension.ts`
(repository withvibe/usevibe) against its natural-language specification.

The class is embedded shallowly:

* the mutable instance fields (`intervalId`, `lastCheckTime`,
  `projectsWithUpdates`) become the record `ServiceState`;
* the Node timer registry (`setInterval` / `clearInterval`) becomes the
  record `TimerSys`: `setInterval` hands out the next fresh id and adds it
  to the active list, `clearInterval` erases an id;
* all external effects (git subprocesses, `console.log` / `console.error`,
  VS Code notifications, `contextManager.updateGitProject`, status-bar
  updates) are recorded in an event trace `List Event`;
* outcomes of the environment (does `folderPath/.git` exist, result of
  `git fetch` / `git rev-list` / `git pull`) are a parameter `Env`;
* `async` methods become pure state-passing functions.  `checkForUpdates`
  is split at its suspension point: `cycleBegin` is the synchronous
  prologue that runs before the first `await` (it stamps `lastCheckTime`,
  clears the pending set, filters the projects and starts one fetch per
  eligible project), and `cycleFinish` is everything that runs when the
  awaited git calls complete.  `checkForUpdates` is their composition;
  interleaved executions (a second invocation, or a `stop`, between the
  prologue and the completion) are the composition with the other
  operation spliced in between.
* the concurrent per-project fan-out (`gitProjects.map(async ...)` joined
  by `Promise.all`) is modelled by the sequential recursion `runTasks`:
  the tasks only add names to a set and increment a counter, operations
  that commute, so the final state is independent of completion order and
  the trace is task-order up to interleaving (the claims below only count
  events, never compare cross-project order).
-/

/-- `AutoSyncConfig` of `extension.ts` (the object returned by
`getConfig()`; the VS Code configuration store is abstracted into this
parameter). -/
structure AutoSyncConfig where
  enabled : Bool
  intervalMinutes : Nat
  autoMerge : Bool
  notifyOnUpdates : Bool
  runOnStartup : Bool
deriving DecidableEq, Repr

/-- One entry of `contextManager.getProjects()`: the fields
`checkForUpdates` reads (`name`, `folderPath`, `enabled`). -/
structure Project where
  name : String
  folderPath : String
  enabled : Bool
deriving DecidableEq, Repr

/-- Outcomes of the environment during one cycle:
`gitDirExists p` models `fs.existsSync(path.join(p, .git))`; `fetch`,
`revList` and `pull` model the settlement of the corresponding
`executeGit` promise for a given working directory (`Except.error` is a
rejected promise; `revList` returns the raw stdout of
`git rev-list HEAD..origin/HEAD --count`). -/
structure Env where
  gitDirExists : String → Bool
  fetch : String → Except String Unit
  revList : String → Except String String
  pull : String → Except String Unit

/-- An observable effect.  Git subprocess starts are recorded per
adapter call; `info` is a `showInformationMessage` from `pullProject`,
`aggregateNotify` the one from `notifyUpdatesAvailable`, `errorMsg` a
`showErrorMessage`, `registryUpdate` a `contextManager.updateGitProject`
call. -/
inductive Event where
  | fetchOp (path : String)
  | revListOp (path : String)
  | pullOp (path : String)
  | logMessage (msg : String)
  | logError (msg : String)
  | info (msg : String)
  | errorMsg (msg : String)
  | aggregateNotify (msg : String)
  | registryUpdate (name : String)
  | statusBarUpdate
  | statusBarHide
deriving DecidableEq, Repr

/-- The mutable instance fields of `AutoSyncService`. -/
structure ServiceState where
  intervalId : Option Nat
  lastCheckTime : Option Nat
  projectsWithUpdates : List String
deriving DecidableEq, Repr

/-- The fresh service right after the constructor. -/
def ServiceState.initial : ServiceState :=
  { intervalId := none, lastCheckTime := none, projectsWithUpdates := [] }

/-- The host timer registry.  `setInterval` returns `nextId` and appends
it to `active`; `clearInterval id` erases `id`. -/
structure TimerSys where
  nextId : Nat
  active : List Nat
deriving DecidableEq, Repr

def TimerSys.initial : TimerSys := { nextId := 0, active := [] }

/-- JS `parseInt` on a digit run: `none` is `NaN`. -/
def jsParseDigits (cs : List Char) : Option Nat :=
  let ds := cs.takeWhile Char.isDigit
  if ds.isEmpty then none
  else some (ds.foldl (fun acc c => acc * 10 + (c.toNat - 48)) 0)

/-- JS `parseInt(s, 10)`: optional sign, then leading digits; `none`
models `NaN`. -/
def jsParseInt (s : String) : Option Int :=
  match s.data with
  | '-' :: rest => (jsParseDigits rest).map (fun n => -(n : Int))
  | '+' :: rest => (jsParseDigits rest).map (fun n => (n : Int))
  | cs => (jsParseDigits cs).map (fun n => (n : Int))

/-- JS `String.prototype.trim()`: strips whitespace from both ends
(kernel-reducible, unlike `String.trim`). -/
def jsTrim (s : String) : String :=
  String.mk
    (((s.data.dropWhile Char.isWhitespace).reverse.dropWhile
      Char.isWhitespace).reverse)

/-- `Set.prototype.add` on the insertion-ordered view of a JS `Set`. -/
def setAdd (s : List String) (x : String) : List String :=
  if x ∈ s then s else s ++ [x]

namespace AutoSyncService

/-- `checkProjectForUpdates(projectPath)` after its fetch promise
settles: consumes the fetch outcome, runs `rev-list` when the fetch
succeeded, parses the count, and converts any rejection into `false`
plus a `console.error` (the surrounding `try`/`catch`). -/
def checkProjectForUpdatesResult (env : Env) (projectPath : String) :
    Bool × List Event :=
  match env.fetch projectPath with
  | .error e => (false, [.logError ("Error checking for updates: " ++ e)])
  | .ok _ =>
    match env.revList projectPath with
    | .error e =>
      (false, [.revListOp projectPath,
               .logError ("Error checking for updates: " ++ e)])
    | .ok out =>
      let commitsBehind := jsParseInt (jsTrim out)
      (match commitsBehind with
       | some n => decide (0 < n)
       | none => false,
       [.revListOp projectPath])

/-- `pullProject(projectPath, projectName)`: starts `git pull origin`;
on fulfilment updates the registry and shows the per-project success
message, on rejection logs and shows an error message (nothing
escapes the `catch`). -/
def pullProject (env : Env) (projectPath projectName : String) :
    List Event :=
  .logMessage ("Auto-pulling updates for " ++ projectName) ::
  .pullOp projectPath ::
  match env.pull projectPath with
  | .ok _ =>
    [.registryUpdate projectName, .info ("✅ Auto-synced: " ++ projectName)]
  | .error e =>
    [.logError ("Failed to pull " ++ projectName ++ ": " ++ e),
     .errorMsg ("Failed to auto-sync " ++ projectName ++ ": " ++ e)]

/-- One task of the `gitProjects.map(async project => ...)` fan-out,
given the current pending set: returns the updated set, the increment of
the local `updatesFound` counter, and the task's events. -/
def projectTask (env : Env) (cfg : AutoSyncConfig) (p : Project)
    (set : List String) : List String × Nat × List Event :=
  let r := checkProjectForUpdatesResult env p.folderPath
  if r.1 then
    (setAdd set p.name, 1,
     r.2 ++ if cfg.autoMerge then pullProject env p.folderPath p.name else [])
  else
    (set, 0, r.2)

/-- The joined fan-out (`await Promise.all(updatePromises)`): runs each
project's task against the shared pending set, accumulating the
`updatesFound` counter and the trace. -/
def runTasks (env : Env) (cfg : AutoSyncConfig) :
    List Project → List String → List String × Nat × List Event
  | [], set => (set, 0, [])
  | p :: rest, set =>
    let r := projectTask env cfg p set
    let rr := runTasks env cfg rest r.1
    (rr.1, r.2.1 + rr.2.1, r.2.2 ++ rr.2.2)

/-- The snapshot a running cycle carries across its suspension point:
the config read at the top of `checkForUpdates` and the filtered
`gitProjects` list. -/
structure PendingCycle where
  cfg : AutoSyncConfig
  projects : List Project
deriving DecidableEq, Repr

/-- The filter `projects.filter(p => p.enabled &&
fs.existsSync(path.join(p.folderPath, .git)))`. -/
def eligibleProjects (env : Env) (projects : List Project) : List Project :=
  projects.filter (fun p => p.enabled && env.gitDirExists p.folderPath)

/-- The synchronous prologue of `checkForUpdates()` (everything before
the first suspension): stamps `lastCheckTime`, clears
`projectsWithUpdates`, filters the projects; with no eligible project it
logs, repaints the status bar and returns (`none`), otherwise it starts
one `git fetch` per eligible project and suspends (`some` cycle). -/
def cycleBegin (s : ServiceState) (cfg : AutoSyncConfig)
    (projects : List Project) (env : Env) (now : Nat) :
    ServiceState × Option PendingCycle × List Event :=
  let s1 := { s with lastCheckTime := some now, projectsWithUpdates := [] }
  let gitProjects := eligibleProjects env projects
  if gitProjects.isEmpty then
    (s1, none, [.logMessage "No Git projects to check", .statusBarUpdate])
  else
    (s1, some { cfg := cfg, projects := gitProjects },
     .logMessage ("Checking " ++ toString gitProjects.length ++
        " Git projects for updates...") ::
     gitProjects.map (fun p => .fetchOp p.folderPath))

/-- `notifyUpdatesAvailable(count, autoMerged)`: the single aggregate
notification, listing the current pending set. -/
def notifyUpdatesAvailable (set : List String) (count : Nat)
    (autoMerged : Bool) : Event :=
  let projectsList := String.intercalate ", " set
  if autoMerged then
    .aggregateNotify ("✅ Auto-synced " ++ toString count ++
      " project(s): " ++ projectsList)
  else
    .aggregateNotify ("📥 " ++ toString count ++
      " project(s) have updates: " ++ projectsList)

/-- The remainder of `checkForUpdates()` once the awaited git calls
settle: the fan-out completes against the instance's current pending
set, then the aggregate notification (when `updatesFound > 0` and
configured) and the status-bar repaint. -/
def cycleFinish (s : ServiceState) (env : Env) (pc : PendingCycle) :
    ServiceState × List Event :=
  let r := runTasks env pc.cfg pc.projects s.projectsWithUpdates
  let s1 := { s with projectsWithUpdates := r.1 }
  let notifyEvs :=
    if 0 < r.2.1 ∧ pc.cfg.notifyOnUpdates then
      [notifyUpdatesAvailable s1.projectsWithUpdates r.2.1 pc.cfg.autoMerge]
    else []
  (s1, r.2.2 ++ notifyEvs ++ [.statusBarUpdate])

/-- `checkForUpdates()` run to completion with nothing interleaved. -/
def checkForUpdates (s : ServiceState) (cfg : AutoSyncConfig)
    (projects : List Project) (env : Env) (now : Nat) :
    ServiceState × List Event :=
  match cycleBegin s cfg projects env now with
  | (s1, none, evs) => (s1, evs)
  | (s1, some pc, evs) =>
    let r := cycleFinish s1 env pc
    (r.1, evs ++ r.2)

/-- `stop()`: clears the interval when armed and hides the status bar;
touches neither `lastCheckTime` nor `projectsWithUpdates`. -/
def stop (s : ServiceState) (ts : TimerSys) :
    ServiceState × TimerSys × List Event :=
  match s.intervalId with
  | some id =>
    ({ s with intervalId := none }, { ts with active := ts.active.erase id },
     [.statusBarHide, .logMessage "Auto-sync service stopped"])
  | none => (s, ts, [.statusBarHide, .logMessage "Auto-sync service stopped"])

/-- `start()`: returns early when disabled; otherwise optionally runs a
startup cycle, then arms a fresh interval timer — without checking for,
or clearing, a previously armed one. -/
def start (s : ServiceState) (ts : TimerSys) (cfg : AutoSyncConfig)
    (projects : List Project) (env : Env) (now : Nat) :
    ServiceState × TimerSys × List Event :=
  if cfg.enabled = false then
    (s, ts, [.logMessage "Auto-sync is disabled", .statusBarHide])
  else
    let r := if cfg.runOnStartup then checkForUpdates s cfg projects env now
             else (s, [])
    let id := ts.nextId
    let ts1 : TimerSys := { nextId := ts.nextId + 1, active := ts.active ++ [id] }
    ({ r.1 with intervalId := some id }, ts1,
     .logMessage "Starting auto-sync service" ::
       r.2 ++ [.statusBarUpdate, .logMessage "Auto-sync service started"])

/-- `getProjectsWithUpdates()`: `Array.from(this.projectsWithUpdates)`.
Returned as value, post-state and emitted events, to state its frame. -/
def getProjectsWithUpdates (s : ServiceState) :
    List String × ServiceState × List Event :=
  (s.projectsWithUpdates, s, [])

/-- A second `checkForUpdates()` invocation arriving while the first is
suspended at its await: the first cycle's prologue runs, then the whole
second invocation, then the first cycle's completion. -/
def doubleInvocation (s : ServiceState) (cfg : AutoSyncConfig)
    (projects : List Project) (env : Env) (now1 now2 : Nat) :
    ServiceState × List Event :=
  match cycleBegin s cfg projects env now1 with
  | (s1, none, evs) =>
    let r := checkForUpdates s1 cfg projects env now2
    (r.1, evs ++ r.2)
  | (s1, some pc, evs) =>
    let r2 := checkForUpdates s1 cfg projects env now2
    let r1 := cycleFinish r2.1 env pc
    (r1.1, evs ++ r2.2 ++ r1.2)

/-- `stop()` called while a cycle is suspended at its await, after which
the cycle completes. -/
def stopDuringCycle (s : ServiceState) (ts : TimerSys)
    (cfg : AutoSyncConfig) (projects : List Project) (env : Env)
    (now : Nat) : ServiceState × TimerSys × List Event :=
  match cycleBegin s cfg projects env now with
  | (s1, none, evs) =>
    let r := stop s1 ts
    (r.1, r.2.1, evs ++ r.2.2)
  | (s1, some pc, evs) =>
    let r := stop s1 ts
    let r1 := cycleFinish r.1 env pc
    (r1.1, r.2.1, evs ++ r.2.2 ++ r1.2)

end AutoSyncService

/-! ### Event selectors used to count trace events -/

/-- Is the event a `git fetch` start in directory `path`? -/
def Event.isFetchFor (path : String) : Event → Bool
  | .fetchOp q => q == path
  | _ => false

/-- Is the event a `git rev-list` start in directory `path`? -/
def Event.isRevListFor (path : String) : Event → Bool
  | .revListOp q => q == path
  | _ => false

/-- Is the event a `git pull` start in directory `path`? -/
def Event.isPullFor (path : String) : Event → Bool
  | .pullOp q => q == path
  | _ => false

/-- Is the event any `git pull` start? -/
def Event.isPull : Event → Bool
  | .pullOp _ => true
  | _ => false

/-- Is the event a `contextManager.updateGitProject(name)` call? -/
def Event.isRegistryFor (name : String) : Event → Bool
  | .registryUpdate m => m == name
  | _ => false

/-- Is the event the aggregate notification of `notifyUpdatesAvailable`? -/
def Event.isAggregate : Event → Bool
  | .aggregateNotify _ => true
  | _ => false

/-- Is the event a `console.error`? -/
def Event.isLogError : Event → Bool
  | .logError _ => true
  | _ => false

/-- Is the event a `showErrorMessage`? -/
def Event.isErrorMessage : Event → Bool
  | .errorMsg _ => true
  | _ => false

/-- Did the `git pull` promise for `path` fulfil? -/
def Env.pullOk (env : Env) (path : String) : Bool :=
  match env.pull path with
  | .ok _ => true
  | .error _ => false

namespace AutoSyncService

/-! ### Lemmas about the fan-out -/

lemma mem_setAdd (s : List String) (x y : String) :
    y ∈ setAdd s x ↔ y ∈ s ∨ y = x := by
  unfold setAdd
  split
  · rename_i h
    exact ⟨Or.inl, fun h2 => h2.elim id (fun he => he ▸ h)⟩
  · simp [List.mem_append]

lemma setAdd_nodup (s : List String) (x : String) (h : s.Nodup) :
    (setAdd s x).Nodup := by
  unfold setAdd
  split
  · exact h
  · rename_i hx
    simp [List.nodup_append, h, hx]

/-- The events of one project's task do not depend on the shared set. -/
lemma projectTask_events_const (env : Env) (cfg : AutoSyncConfig)
    (p : Project) (s1 s2 : List String) :
    (projectTask env cfg p s1).2.2 = (projectTask env cfg p s2).2.2 := by
  unfold projectTask
  cases h : (checkProjectForUpdatesResult env p.folderPath).1 <;> simp [h]

/-- The counter increment of one task: `1` iff the check reported an
update. -/
lemma projectTask_found (env : Env) (cfg : AutoSyncConfig) (p : Project)
    (set : List String) :
    (projectTask env cfg p set).2.1 =
      if (checkProjectForUpdatesResult env p.folderPath).1 then 1 else 0 := by
  unfold projectTask
  cases h : (checkProjectForUpdatesResult env p.folderPath).1 <;> simp [h]

/-- The set produced by one task. -/
lemma projectTask_set (env : Env) (cfg : AutoSyncConfig) (p : Project)
    (set : List String) :
    (projectTask env cfg p set).1 =
      if (checkProjectForUpdatesResult env p.folderPath).1 then setAdd set p.name
      else set := by
  unfold projectTask
  cases h : (checkProjectForUpdatesResult env p.folderPath).1 <;> simp [h]

/-- Membership in the pending set after the fan-out. -/
lemma runTasks_mem_set (env : Env) (cfg : AutoSyncConfig) :
    ∀ (ps : List Project) (set : List String) (x : String),
    x ∈ (runTasks env cfg ps set).1 ↔
      x ∈ set ∨ ∃ p, p ∈ ps ∧
        (checkProjectForUpdatesResult env p.folderPath).1 = true ∧ p.name = x
  | [], set, x => by simp [runTasks]
  | p :: rest, set, x => by
    rw [runTasks]
    rw [runTasks_mem_set env cfg rest _ x]
    rw [projectTask_set]
    by_cases h : (checkProjectForUpdatesResult env p.folderPath).1
    · simp only [h, if_pos, mem_setAdd]
      constructor
      · rintro (⟨hs | he⟩ | ⟨q, hq, hchk, hname⟩)
        · exact Or.inl hs
        · exact Or.inr ⟨p, List.mem_cons_self p rest, h, he.symm⟩
        · exact Or.inr ⟨q, List.mem_cons_of_mem p hq, hchk, hname⟩
      · rintro (hs | ⟨q, hq, hchk, hname⟩)
        · exact Or.inl (Or.inl hs)
        · rcases List.mem_cons.mp hq with hq | hq
          · exact Or.inl (Or.inr (hq ▸ hname.symm))
          · exact Or.inr ⟨q, hq, hchk, hname⟩
    · simp only [h, if_neg, Bool.false_eq_true, not_false_iff]
      constructor
      · rintro (hs | ⟨q, hq, hchk, hname⟩)
        · exact Or.inl hs
        · exact Or.inr ⟨q, List.mem_cons_of_mem p hq, hchk, hname⟩
      · rintro (hs | ⟨q, hq, hchk, hname⟩)
        · exact Or.inl hs
        · rcases List.mem_cons.mp hq with hq | hq
          · exact absurd (hq ▸ hchk) (by simpa using h)
          · exact Or.inr ⟨q, hq, hchk, hname⟩

/-- The fan-out never removes a name from the pending set. -/
lemma runTasks_mem_mono (env : Env) (cfg : AutoSyncConfig)
    (ps : List Project) (set : List String) (x : String) (h : x ∈ set) :
    x ∈ (runTasks env cfg ps set).1 :=
  (runTasks_mem_set env cfg ps set x).mpr (Or.inl h)

/-- The `updatesFound` counter equals the number of projects whose check
reported an update. -/
lemma runTasks_found (env : Env) (cfg : AutoSyncConfig) :
    ∀ (ps : List Project) (set : List String),
    (runTasks env cfg ps set).2.1 =
      ps.countP (fun p => (checkProjectForUpdatesResult env p.folderPath).1)
  | [], set => by simp [runTasks]
  | p :: rest, set => by
    rw [runTasks]
    simp only [projectTask_found, List.countP_cons,
      runTasks_found env cfg rest]
    by_cases h : (checkProjectForUpdatesResult env p.folderPath).1 <;>
      simp [h, Nat.add_comm]

/-- A zero counter means the fan-out left the set untouched. -/
lemma runTasks_set_of_found_zero (env : Env) (cfg : AutoSyncConfig) :
    ∀ (ps : List Project) (set : List String),
    (runTasks env cfg ps set).2.1 = 0 → (runTasks env cfg ps set).1 = set
  | [], set, _ => by simp [runTasks]
  | p :: rest, set, h => by
    rw [runTasks_found] at h
    simp only [List.countP_cons] at h
    have hchk : (checkProjectForUpdatesResult env p.folderPath).1 = false := by
      cases hc : (checkProjectForUpdatesResult env p.folderPath).1
      · rfl
      · simp [hc] at h
    simp only [hchk, if_neg, Bool.false_eq_true, not_false_iff,
      Nat.add_zero] at h
    have hrest : (runTasks env cfg rest set).2.1 = 0 := by
      rw [runTasks_found]
      exact h
    have hstep : (runTasks env cfg (p :: rest) set).1 =
        (runTasks env cfg rest (projectTask env cfg p set).1).1 := by
      simp only [runTasks]
    rw [hstep, projectTask_set]
    simp only [hchk, Bool.false_eq_true, if_neg, not_false_iff]
    exact runTasks_set_of_found_zero env cfg rest set hrest

/-- The fan-out preserves distinctness of the pending set. -/
lemma runTasks_nodup (env : Env) (cfg : AutoSyncConfig) :
    ∀ (ps : List Project) (set : List String), set.Nodup →
    (runTasks env cfg ps set).1.Nodup
  | [], set, h => by simpa [runTasks] using h
  | p :: rest, set, h => by
    rw [runTasks]
    apply runTasks_nodup env cfg rest
    rw [projectTask_set]
    split
    · exact setAdd_nodup set p.name h
    · exact h

end AutoSyncService

namespace AutoSyncService

/-! ### Shape of the events each operation can emit -/

/-- A check task emits only its `console.error` and its `rev-list`
start (in its own directory). -/
lemma checkResult_events_shape (env : Env) (path : String) :
    ∀ e ∈ (checkProjectForUpdatesResult env path).2,
      (∃ m, e = Event.logError m) ∨ e = Event.revListOp path := by
  intro e he
  unfold checkProjectForUpdatesResult at he
  rcases h : env.fetch path with e1 | u <;> rw [h] at he
  · simp only [List.mem_singleton] at he
    exact Or.inl ⟨_, he⟩
  · rcases h2 : env.revList path with e2 | out <;> rw [h2] at he
    · rcases List.mem_cons.mp he with he | he
      · exact Or.inr he
      · simp only [List.mem_singleton] at he
        exact Or.inl ⟨_, he⟩
    · simp only [List.mem_singleton] at he
      exact Or.inr he

/-- A pull emits only its log line, its `pull` start, its registry
update and its user-facing messages. -/
lemma pullProject_events_shape (env : Env) (path name : String) :
    ∀ e ∈ pullProject env path name,
      (∃ m, e = Event.logMessage m) ∨ e = Event.pullOp path ∨
      e = Event.registryUpdate name ∨ (∃ m, e = Event.info m) ∨
      (∃ m, e = Event.logError m) ∨ (∃ m, e = Event.errorMsg m) := by
  intro e he
  unfold pullProject at he
  rcases h : env.pull path with e1 | u <;> rw [h] at he <;>
    simp only [List.mem_cons, List.not_mem_nil, or_false] at he
  · rcases he with rfl | rfl | rfl | rfl
    · exact Or.inl ⟨_, rfl⟩
    · exact Or.inr (Or.inl rfl)
    · exact Or.inr (Or.inr (Or.inr (Or.inr (Or.inl ⟨_, rfl⟩))))
    · exact Or.inr (Or.inr (Or.inr (Or.inr (Or.inr ⟨_, rfl⟩))))
  · rcases he with rfl | rfl | rfl | rfl
    · exact Or.inl ⟨_, rfl⟩
    · exact Or.inr (Or.inl rfl)
    · exact Or.inr (Or.inr (Or.inl rfl))
    · exact Or.inr (Or.inr (Or.inr (Or.inl ⟨_, rfl⟩)))

/-- A project task's events come from its check and, when it reported
an update under `autoMerge`, from its pull. -/
lemma projectTask_events_shape (env : Env) (cfg : AutoSyncConfig)
    (p : Project) (set : List String) :
    ∀ e ∈ (projectTask env cfg p set).2.2,
      e ∈ (checkProjectForUpdatesResult env p.folderPath).2 ∨
      ((checkProjectForUpdatesResult env p.folderPath).1 = true ∧
       cfg.autoMerge = true ∧ e ∈ pullProject env p.folderPath p.name) := by
  intro e he
  simp only [projectTask] at he
  rcases h : (checkProjectForUpdatesResult env p.folderPath).1 <;>
    rw [h] at he
  · simp only [Bool.false_eq_true, if_false] at he
    exact Or.inl he
  · simp only [if_true, List.mem_append] at he
    rcases he with he | he
    · exact Or.inl he
    · rcases hm : cfg.autoMerge <;> rw [hm] at he
      · simp at he
      · exact Or.inr ⟨rfl, rfl, he⟩

/-- Every fan-out event belongs to some task of a listed project. -/
lemma runTasks_events_mem (env : Env) (cfg : AutoSyncConfig) :
    ∀ (ps : List Project) (set : List String) (e : Event),
    e ∈ (runTasks env cfg ps set).2.2 →
      ∃ p, p ∈ ps ∧ e ∈ (projectTask env cfg p []).2.2
  | [], _, e, h => by simp [runTasks] at h
  | p :: rest, set, e, h => by
    simp only [runTasks, List.mem_append] at h
    rcases h with h | h
    · exact ⟨p, List.mem_cons_self p rest,
        (projectTask_events_const env cfg p set []) ▸ h⟩
    · rcases runTasks_events_mem env cfg rest _ e h with ⟨q, hq, he⟩
      exact ⟨q, List.mem_cons_of_mem p hq, he⟩

/-- Conversely, every listed project's task events appear in the
fan-out trace. -/
lemma runTasks_events_mem_of (env : Env) (cfg : AutoSyncConfig) :
    ∀ (ps : List Project) (set : List String) (p : Project), p ∈ ps →
    ∀ e ∈ (projectTask env cfg p []).2.2, e ∈ (runTasks env cfg ps set).2.2
  | [], _, p, hp, e, _ => by simp at hp
  | q :: rest, set, p, hp, e, he => by
    simp only [runTasks, List.mem_append]
    rcases List.mem_cons.mp hp with hp | hp
    · subst hp
      exact Or.inl ((projectTask_events_const env cfg p [] set) ▸ he)
    · exact Or.inr (runTasks_events_mem_of env cfg rest _ p hp e he)

/-- The fan-out never starts a `git fetch` (fetches are started by the
synchronous prologue only). -/
lemma runTasks_countP_fetch (env : Env) (cfg : AutoSyncConfig)
    (ps : List Project) (set : List String) (path : String) :
    (runTasks env cfg ps set).2.2.countP (Event.isFetchFor path) = 0 := by
  rw [List.countP_eq_zero]
  intro e he
  rcases runTasks_events_mem env cfg ps set e he with ⟨p, _, hp⟩
  rcases projectTask_events_shape env cfg p [] e hp with h | ⟨_, _, h⟩
  · rcases checkResult_events_shape env p.folderPath e h with ⟨m, rfl⟩ | rfl <;>
      simp [Event.isFetchFor]
  · rcases pullProject_events_shape env p.folderPath p.name e h with
      ⟨m, rfl⟩ | rfl | rfl | ⟨m, rfl⟩ | ⟨m, rfl⟩ | ⟨m, rfl⟩ <;>
      simp [Event.isFetchFor]

/-- The fan-out never emits the aggregate notification. -/
lemma runTasks_countP_aggregate (env : Env) (cfg : AutoSyncConfig)
    (ps : List Project) (set : List String) :
    (runTasks env cfg ps set).2.2.countP Event.isAggregate = 0 := by
  rw [List.countP_eq_zero]
  intro e he
  rcases runTasks_events_mem env cfg ps set e he with ⟨p, _, hp⟩
  rcases projectTask_events_shape env cfg p [] e hp with h | ⟨_, _, h⟩
  · rcases checkResult_events_shape env p.folderPath e h with ⟨m, rfl⟩ | rfl <;>
      simp [Event.isAggregate]
  · rcases pullProject_events_shape env p.folderPath p.name e h with
      ⟨m, rfl⟩ | rfl | rfl | ⟨m, rfl⟩ | ⟨m, rfl⟩ | ⟨m, rfl⟩ <;>
      simp [Event.isAggregate]

/-- A `rev-list` start in the fan-out trace names the directory of a
listed project. -/
lemma runTasks_revList_origin (env : Env) (cfg : AutoSyncConfig)
    (ps : List Project) (set : List String) (path : String)
    (h : Event.revListOp path ∈ (runTasks env cfg ps set).2.2) :
    ∃ p, p ∈ ps ∧ p.folderPath = path := by
  rcases runTasks_events_mem env cfg ps set _ h with ⟨p, hps, hp⟩
  rcases projectTask_events_shape env cfg p [] _ hp with hc | ⟨_, _, hc⟩
  · rcases checkResult_events_shape env p.folderPath _ hc with ⟨m, hm⟩ | hm
    · exact absurd hm (by simp)
    · exact ⟨p, hps, by injection hm with h2; exact h2.symm⟩
  · rcases pullProject_events_shape env p.folderPath p.name _ hc with
      ⟨m, hm⟩ | hm | hm | ⟨m, hm⟩ | ⟨m, hm⟩ | ⟨m, hm⟩ <;> simp_all

/-- A `pull` start in the fan-out trace names the directory of a listed
project. -/
lemma runTasks_pull_origin (env : Env) (cfg : AutoSyncConfig)
    (ps : List Project) (set : List String) (path : String)
    (h : Event.pullOp path ∈ (runTasks env cfg ps set).2.2) :
    ∃ p, p ∈ ps ∧ p.folderPath = path := by
  rcases runTasks_events_mem env cfg ps set _ h with ⟨p, hps, hp⟩
  rcases projectTask_events_shape env cfg p [] _ hp with hc | ⟨_, _, hc⟩
  · rcases checkResult_events_shape env p.folderPath _ hc with ⟨m, hm⟩ | hm <;>
      simp_all
  · rcases pullProject_events_shape env p.folderPath p.name _ hc with
      ⟨m, hm⟩ | hm | hm | ⟨m, hm⟩ | ⟨m, hm⟩ | ⟨m, hm⟩ <;> simp_all
    exact ⟨p, hps, rfl⟩

end AutoSyncService

namespace AutoSyncService

/-! ### Counting registry writes -/

lemma checkResult_countP_registry (env : Env) (path n : String) :
    (checkProjectForUpdatesResult env path).2.countP
      (Event.isRegistryFor n) = 0 := by
  rw [List.countP_eq_zero]
  intro e he
  rcases checkResult_events_shape env path e he with ⟨m, rfl⟩ | rfl <;>
    simp [Event.isRegistryFor]

/-- A pull writes the registry exactly once, and only when its promise
fulfils. -/
lemma pullProject_countP_registry (env : Env) (path name n : String) :
    (pullProject env path name).countP (Event.isRegistryFor n) =
      if env.pullOk path && (name == n) then 1 else 0 := by
  unfold pullProject Env.pullOk
  rcases h : env.pull path with e1 | u <;>
    simp only [h] <;>
    by_cases hn : (name == n) = true <;>
    simp [List.countP_cons, Event.isRegistryFor, hn]

/-- Registry writes of one task. -/
lemma projectTask_countP_registry (env : Env) (cfg : AutoSyncConfig)
    (p : Project) (set : List String) (n : String) :
    (projectTask env cfg p set).2.2.countP (Event.isRegistryFor n) =
      if (checkProjectForUpdatesResult env p.folderPath).1 && cfg.autoMerge
          && env.pullOk p.folderPath && (p.name == n) then 1 else 0 := by
  simp only [projectTask]
  rcases h : (checkProjectForUpdatesResult env p.folderPath).1
  · simp [checkResult_countP_registry]
  · rcases hm : cfg.autoMerge
    · simp [checkResult_countP_registry, hm]
    · simp [List.countP_append, checkResult_countP_registry, hm,
        pullProject_countP_registry]

/-- Registry writes of the whole fan-out: one per project whose check
reported an update, under `autoMerge`, whose pull fulfilled, and whose
name is `n`. -/
lemma runTasks_countP_registry (env : Env) (cfg : AutoSyncConfig) :
    ∀ (ps : List Project) (set : List String) (n : String),
    (runTasks env cfg ps set).2.2.countP (Event.isRegistryFor n) =
      ps.countP (fun p => (checkProjectForUpdatesResult env p.folderPath).1
        && cfg.autoMerge && env.pullOk p.folderPath && (p.name == n))
  | [], set, n => by simp [runTasks]
  | p :: rest, set, n => by
    simp only [runTasks, List.countP_append, List.countP_cons,
      projectTask_countP_registry, runTasks_countP_registry env cfg rest]
    by_cases h : ((checkProjectForUpdatesResult env p.folderPath).1
        && cfg.autoMerge && env.pullOk p.folderPath && (p.name == n)) = true <;>
      simp [h, Nat.add_comm]

/-! ### Decomposing a full `checkForUpdates` run -/

/-- The instance state after `cycleFinish`. -/
lemma cycleFinish_state (s : ServiceState) (env : Env) (pc : PendingCycle) :
    (cycleFinish s env pc).1 =
      { s with projectsWithUpdates :=
          (runTasks env pc.cfg pc.projects s.projectsWithUpdates).1 } := rfl

/-- The trace of `cycleFinish`. -/
lemma cycleFinish_trace (s : ServiceState) (env : Env) (pc : PendingCycle) :
    (cycleFinish s env pc).2 =
      (runTasks env pc.cfg pc.projects s.projectsWithUpdates).2.2 ++
      (if 0 < (runTasks env pc.cfg pc.projects s.projectsWithUpdates).2.1
          ∧ pc.cfg.notifyOnUpdates then
        [notifyUpdatesAvailable
          (runTasks env pc.cfg pc.projects s.projectsWithUpdates).1
          (runTasks env pc.cfg pc.projects s.projectsWithUpdates).2.1
          pc.cfg.autoMerge]
       else []) ++ [Event.statusBarUpdate] := rfl

/-- The state after a full `checkForUpdates`: the timer handle is
untouched, `lastCheckTime` is stamped, and the pending set is rebuilt
from scratch by the fan-out over the eligible projects. -/
lemma checkForUpdates_state (s : ServiceState) (cfg : AutoSyncConfig)
    (projects : List Project) (env : Env) (now : Nat) :
    (checkForUpdates s cfg projects env now).1 =
      { intervalId := s.intervalId, lastCheckTime := some now,
        projectsWithUpdates :=
          (runTasks env cfg (eligibleProjects env projects) []).1 } := by
  unfold checkForUpdates cycleBegin
  by_cases h : (eligibleProjects env projects).isEmpty
  · have h2 : eligibleProjects env projects = [] := by
      simpa using h
    simp [h, h2, runTasks]
  · simp [h, cycleFinish_state]

/-- The trace of a run with no eligible project. -/
lemma checkForUpdates_trace_empty (s : ServiceState) (cfg : AutoSyncConfig)
    (projects : List Project) (env : Env) (now : Nat)
    (h : eligibleProjects env projects = []) :
    (checkForUpdates s cfg projects env now).2 =
      [Event.logMessage "No Git projects to check", Event.statusBarUpdate] := by
  unfold checkForUpdates cycleBegin
  simp [h]

/-- The trace of a run with at least one eligible project decomposes
into the prologue's log and fetches followed by the completion's
events. -/
lemma checkForUpdates_trace (s : ServiceState) (cfg : AutoSyncConfig)
    (projects : List Project) (env : Env) (now : Nat)
    (h : (eligibleProjects env projects).isEmpty = false) :
    (checkForUpdates s cfg projects env now).2 =
      (Event.logMessage ("Checking " ++
          toString (eligibleProjects env projects).length ++
          " Git projects for updates...") ::
        (eligibleProjects env projects).map
          (fun p => Event.fetchOp p.folderPath)) ++
      (cycleFinish (ServiceState.mk s.intervalId (some now) []) env
        (PendingCycle.mk cfg (eligibleProjects env projects))).2 := by
  unfold checkForUpdates cycleBegin
  simp [h]

end AutoSyncService

namespace AutoSyncService

/-! ### Membership facts used by the claims -/

lemma countP_ge_one_of_mem {l : List Event} {e : Event} {f : Event → Bool}
    (hm : e ∈ l) (hf : f e = true) : 1 ≤ l.countP f :=
  List.countP_pos_iff.mpr ⟨e, hm, hf⟩

lemma eligible_isEmpty_false {env : Env} {projects : List Project}
    {p : Project} (hp : p ∈ eligibleProjects env projects) :
    (eligibleProjects env projects).isEmpty = false := by
  cases h : eligibleProjects env projects with
  | nil => rw [h] at hp; simp at hp
  | cons a l => rfl

/-- A task's trace contains all of its check's events. -/
lemma projectTask_events_check_sub (env : Env) (cfg : AutoSyncConfig)
    (p : Project) (set : List String) :
    ∀ e ∈ (checkProjectForUpdatesResult env p.folderPath).2,
      e ∈ (projectTask env cfg p set).2.2 := by
  intro e he
  simp only [projectTask]
  rcases h : (checkProjectForUpdatesResult env p.folderPath).1 <;>
    simp [h, he]

/-- When the fetch fulfilled, the check started a `rev-list`. -/
lemma checkResult_revList_mem (env : Env) (path : String)
    (hf : env.fetch path = Except.ok ()) :
    Event.revListOp path ∈ (checkProjectForUpdatesResult env path).2 := by
  unfold checkProjectForUpdatesResult
  rw [hf]
  rcases h : env.revList path with e | out <;> simp [h]

/-- Every listed project whose fetch fulfilled gets a `rev-list` start
in the fan-out trace. -/
lemma runTasks_revList_mem (env : Env) (cfg : AutoSyncConfig)
    (ps : List Project) (set : List String) (p : Project) (hp : p ∈ ps)
    (hf : env.fetch p.folderPath = Except.ok ()) :
    Event.revListOp p.folderPath ∈ (runTasks env cfg ps set).2.2 :=
  runTasks_events_mem_of env cfg ps set p hp _
    (projectTask_events_check_sub env cfg p [] _
      (checkResult_revList_mem env p.folderPath hf))

/-- Every eligible project's fetch is started by a full run. -/
lemma checkForUpdates_fetch_mem (s : ServiceState) (cfg : AutoSyncConfig)
    (projects : List Project) (env : Env) (now : Nat) (p : Project)
    (hp : p ∈ eligibleProjects env projects) :
    Event.fetchOp p.folderPath ∈ (checkForUpdates s cfg projects env now).2 := by
  rw [checkForUpdates_trace s cfg projects env now (eligible_isEmpty_false hp)]
  exact List.mem_append_left _
    (List.mem_cons_of_mem _ (List.mem_map.mpr ⟨p, hp, rfl⟩))

/-- Every eligible project whose fetch fulfilled gets a `rev-list`
start in a full run. -/
lemma checkForUpdates_revList_mem (s : ServiceState) (cfg : AutoSyncConfig)
    (projects : List Project) (env : Env) (now : Nat) (p : Project)
    (hp : p ∈ eligibleProjects env projects)
    (hf : env.fetch p.folderPath = Except.ok ()) :
    Event.revListOp p.folderPath ∈ (checkForUpdates s cfg projects env now).2 := by
  rw [checkForUpdates_trace s cfg projects env now (eligible_isEmpty_false hp)]
  refine List.mem_append_right _ ?_
  rw [cycleFinish_trace]
  exact List.mem_append_left _ (List.mem_append_left _
    (runTasks_revList_mem env cfg _ _ p hp hf))

/-- A full run always ends with the status-bar repaint: no per-project
failure aborts the cycle. -/
lemma checkForUpdates_statusBar_mem (s : ServiceState) (cfg : AutoSyncConfig)
    (projects : List Project) (env : Env) (now : Nat) :
    Event.statusBarUpdate ∈ (checkForUpdates s cfg projects env now).2 := by
  by_cases h : (eligibleProjects env projects).isEmpty = true
  · rw [checkForUpdates_trace_empty s cfg projects env now (by simpa using h)]
    simp
  · rw [checkForUpdates_trace s cfg projects env now
      (Bool.not_eq_true _ ▸ h)]
    refine List.mem_append_right _ ?_
    rw [cycleFinish_trace]
    exact List.mem_append_right _ (List.mem_singleton.mpr rfl)

/-- The trace of the interleaved double invocation: first prologue,
full second invocation, first completion. -/
lemma doubleInvocation_trace (s : ServiceState) (cfg : AutoSyncConfig)
    (projects : List Project) (env : Env) (now1 now2 : Nat)
    (h : (eligibleProjects env projects).isEmpty = false) :
    (doubleInvocation s cfg projects env now1 now2).2 =
      (Event.logMessage ("Checking " ++
          toString (eligibleProjects env projects).length ++
          " Git projects for updates...") ::
        (eligibleProjects env projects).map
          (fun p => Event.fetchOp p.folderPath)) ++
      ((checkForUpdates (ServiceState.mk s.intervalId (some now1) [])
          cfg projects env now2).2 ++
       (cycleFinish (checkForUpdates
            (ServiceState.mk s.intervalId (some now1) [])
            cfg projects env now2).1 env
          (PendingCycle.mk cfg (eligibleProjects env projects))).2) := by
  unfold doubleInvocation cycleBegin
  simp [h, List.append_assoc]

end AutoSyncService

namespace AutoSyncService

/-- `stop()` only clears the timer handle; the other two fields are
untouched. -/
lemma stop_state (s : ServiceState) (ts : TimerSys) :
    (stop s ts).1 = { s with intervalId := none } := by
  unfold stop
  rcases h : s.intervalId with _ | id
  · simp only [h]
    cases s
    simp_all
  · rfl

/-- Any event of an eligible project's task occurs in the full run's
trace. -/
lemma checkForUpdates_task_event_mem (s : ServiceState)
    (cfg : AutoSyncConfig) (projects : List Project) (env : Env) (now : Nat)
    (p : Project) (hp : p ∈ eligibleProjects env projects) (e : Event)
    (he : e ∈ (projectTask env cfg p []).2.2) :
    e ∈ (checkForUpdates s cfg projects env now).2 := by
  rw [checkForUpdates_trace s cfg projects env now (eligible_isEmpty_false hp)]
  refine List.mem_append_right _ ?_
  rw [cycleFinish_trace]
  exact List.mem_append_left _ (List.mem_append_left _
    (runTasks_events_mem_of env cfg _ _ p hp e he))

/-- A fetch or rev-list rejection makes the check report `false` and
log a `console.error`. -/
lemma checkResult_fail (env : Env) (path : String)
    (h : (∃ e, env.fetch path = Except.error e) ∨
         (∃ e, env.revList path = Except.error e)) :
    (checkProjectForUpdatesResult env path).1 = false ∧
    ∃ m, Event.logError m ∈ (checkProjectForUpdatesResult env path).2 := by
  unfold checkProjectForUpdatesResult
  rcases hf : env.fetch path with e | u
  · exact ⟨rfl, _, List.mem_singleton.mpr rfl⟩
  · rcases hr : env.revList path with e | out
    · exact ⟨rfl, _, List.mem_cons_of_mem _ (List.mem_singleton.mpr rfl)⟩
    · rcases h with ⟨e, he⟩ | ⟨e, he⟩ <;> simp_all

/-- When a task found an update under `autoMerge`, all its pull events
are among its events. -/
lemma projectTask_events_pull_sub (env : Env) (cfg : AutoSyncConfig)
    (p : Project) (set : List String)
    (hchk : (checkProjectForUpdatesResult env p.folderPath).1 = true)
    (hm : cfg.autoMerge = true) :
    ∀ e ∈ pullProject env p.folderPath p.name,
      e ∈ (projectTask env cfg p set).2.2 := by
  intro e he
  simp only [projectTask, hchk, if_true, hm]
  exact List.mem_append_right _ he

/-- The aggregate notification is an `aggregateNotify` event whichever
way it is phrased. -/
lemma notifyUpdatesAvailable_isAggregate (set : List String) (n : Nat)
    (b : Bool) : (notifyUpdatesAvailable set n b).isAggregate = true := by
  unfold notifyUpdatesAvailable
  cases b <;> rfl

/-- A `git fetch` in the full trace belongs to an eligible project. -/
lemma checkForUpdates_fetch_origin (s : ServiceState) (cfg : AutoSyncConfig)
    (projects : List Project) (env : Env) (now : Nat) (path : String)
    (h : Event.fetchOp path ∈ (checkForUpdates s cfg projects env now).2) :
    ∃ q, q ∈ eligibleProjects env projects ∧ q.folderPath = path := by
  by_cases hemp : (eligibleProjects env projects).isEmpty = true
  · rw [checkForUpdates_trace_empty s cfg projects env now
      (by simpa using hemp)] at h
    simp at h
  · rw [checkForUpdates_trace s cfg projects env now
      (Bool.not_eq_true _ ▸ hemp)] at h
    rw [cycleFinish_trace] at h
    simp only [List.mem_append, List.mem_cons] at h
    rcases h with (h | h) | ((h | h) | h)
    · exact absurd h (by simp)
    · rcases List.mem_map.mp h with ⟨q, hq, he⟩
      exact ⟨q, hq, by injection he.symm with h2; exact h2.symm⟩
    · exact absurd (List.countP_eq_zero.mp
        (runTasks_countP_fetch env cfg _ _ path) _ h)
        (by simp [Event.isFetchFor])
    · rcases hc : (0 < (runTasks env cfg (eligibleProjects env projects)
          []).2.1 ∧ cfg.notifyOnUpdates : Prop) with _
      split at h
      · rcases List.mem_singleton.mp h with he
        exact absurd (he ▸ notifyUpdatesAvailable_isAggregate _ _ _)
          (by simp [Event.isAggregate, ← he])
      · simp at h
    · simp at h

/-- A `git rev-list` in the full trace belongs to an eligible project. -/
lemma checkForUpdates_revList_origin (s : ServiceState)
    (cfg : AutoSyncConfig) (projects : List Project) (env : Env) (now : Nat)
    (path : String)
    (h : Event.revListOp path ∈ (checkForUpdates s cfg projects env now).2) :
    ∃ q, q ∈ eligibleProjects env projects ∧ q.folderPath = path := by
  by_cases hemp : (eligibleProjects env projects).isEmpty = true
  · rw [checkForUpdates_trace_empty s cfg projects env now
      (by simpa using hemp)] at h
    simp at h
  · rw [checkForUpdates_trace s cfg projects env now
      (Bool.not_eq_true _ ▸ hemp)] at h
    rw [cycleFinish_trace] at h
    simp only [List.mem_append, List.mem_cons] at h
    rcases h with (h | h) | ((h | h) | h)
    · exact absurd h (by simp)
    · rcases List.mem_map.mp h with ⟨q, _, he⟩
      exact absurd he (by simp)
    · exact runTasks_revList_origin env cfg _ _ path h
    · split at h
      · rcases List.mem_singleton.mp h with he
        exact absurd (he ▸ notifyUpdatesAvailable_isAggregate _ _ _)
          (by simp [Event.isAggregate, ← he])
      · simp at h
    · simp at h

/-- A `git pull` in the full trace belongs to an eligible project. -/
lemma checkForUpdates_pull_origin (s : ServiceState) (cfg : AutoSyncConfig)
    (projects : List Project) (env : Env) (now : Nat) (path : String)
    (h : Event.pullOp path ∈ (checkForUpdates s cfg projects env now).2) :
    ∃ q, q ∈ eligibleProjects env projects ∧ q.folderPath = path := by
  by_cases hemp : (eligibleProjects env projects).isEmpty = true
  · rw [checkForUpdates_trace_empty s cfg projects env now
      (by simpa using hemp)] at h
    simp at h
  · rw [checkForUpdates_trace s cfg projects env now
      (Bool.not_eq_true _ ▸ hemp)] at h
    rw [cycleFinish_trace] at h
    simp only [List.mem_append, List.mem_cons] at h
    rcases h with (h | h) | ((h | h) | h)
    · exact absurd h (by simp)
    · rcases List.mem_map.mp h with ⟨q, _, he⟩
      exact absurd he (by simp)
    · exact runTasks_pull_origin env cfg _ _ path h
    · split at h
      · rcases List.mem_singleton.mp h with he
        exact absurd (he ▸ notifyUpdatesAvailable_isAggregate _ _ _)
          (by simp [Event.isAggregate, ← he])
      · simp at h
    · simp at h

end AutoSyncService

namespace AutoSyncService

/-- The aggregate notification is never a registry update. -/
lemma notifyUpdatesAvailable_not_registry (l : List String) (n : Nat)
    (b : Bool) (m : String) :
    Event.isRegistryFor m (notifyUpdatesAvailable l n b) = false := by
  unfold notifyUpdatesAvailable
  cases b <;> rfl

end AutoSyncService

open AutoSyncService

/-! ### Concrete scenarios -/

/-- Project A: git-backed, 2 commits behind its remote. -/
def projA : Project := { name := "A", folderPath := "repoA", enabled := true }

/-- Project B: git-backed, up to date. -/
def projB : Project := { name := "B", folderPath := "repoB", enabled := true }

/-- Project C: enabled but not git-backed. -/
def projC : Project := { name := "C", folderPath := "repoC", enabled := true }

/-- Project D: git-backed, 3 commits behind, pull fulfils. -/
def projD : Project := { name := "D", folderPath := "repoD", enabled := true }

/-- Environment for A, B, C: every folder except C's has a `.git`
marker, fetches fulfil, A is 2 behind and B 0 behind. -/
def demoEnv : Env where
  gitDirExists := fun p => !(p == "repoC")
  fetch := fun _ => Except.ok ()
  revList := fun p => if p == "repoA" then Except.ok "2\n" else Except.ok "0\n"
  pull := fun _ => Except.ok ()

/-- Environment in which every folder is git-backed and 3 behind and
every git call fulfils. -/
def envBehind : Env where
  gitDirExists := fun _ => true
  fetch := fun _ => Except.ok ()
  revList := fun _ => Except.ok "3"
  pull := fun _ => Except.ok ()

/-- Notify-only configuration. -/
def notifyCfg : AutoSyncConfig :=
  { enabled := true, intervalMinutes := 30, autoMerge := false,
    notifyOnUpdates := true, runOnStartup := true }

/-- Auto-merge configuration. -/
def mergeCfg : AutoSyncConfig := { notifyCfg with autoMerge := true }

/-- Enabled configuration that skips the startup cycle. -/
def quietCfg : AutoSyncConfig := { notifyCfg with runOnStartup := false }

/-! ### C1 -/

/-- C1 is false on the code: `checkForUpdates()` has no re-entry guard,
so a second invocation arriving while the first cycle of the same
instance is in flight runs a full second cycle — with one eligible
project the combined trace holds two `git fetch` and two `git rev-list`
starts for it, not exactly one. -/
theorem claim1_counterexample :
    (doubleInvocation ServiceState.initial notifyCfg [projD] envBehind 1 2).2.countP
        (Event.isFetchFor "repoD") = 2 ∧
    (doubleInvocation ServiceState.initial notifyCfg [projD] envBehind 1 2).2.countP
        (Event.isRevListFor "repoD") = 2 ∧
    ¬ ((doubleInvocation ServiceState.initial notifyCfg [projD] envBehind 1 2).2.countP
        (Event.isFetchFor "repoD") = 1) := by
  decide

/-- C1 (amended): `checkForUpdates()` does not coalesce re-entrant
invocations: a call arriving while a previous cycle is still in flight
starts a full second cycle, so the two invocations together start at
least two `git fetch` processes — and, when the fetch fulfils, at least
two `git rev-list` processes — for every eligible project. -/
theorem claim1_no_reentry_guard (s : ServiceState) (cfg : AutoSyncConfig)
    (projects : List Project) (env : Env) (now1 now2 : Nat) (p : Project)
    (hp : p ∈ eligibleProjects env projects) :
    2 ≤ (doubleInvocation s cfg projects env now1 now2).2.countP
        (Event.isFetchFor p.folderPath) ∧
    (env.fetch p.folderPath = Except.ok () →
      2 ≤ (doubleInvocation s cfg projects env now1 now2).2.countP
        (Event.isRevListFor p.folderPath)) := by
  have hne := eligible_isEmpty_false hp
  rw [doubleInvocation_trace s cfg projects env now1 now2 hne]
  constructor
  · rw [List.countP_append, List.countP_append]
    have h1 : 1 ≤ (Event.logMessage ("Checking " ++
        toString (eligibleProjects env projects).length ++
        " Git projects for updates...") ::
        (eligibleProjects env projects).map
          (fun p => Event.fetchOp p.folderPath)).countP
        (Event.isFetchFor p.folderPath) :=
      countP_ge_one_of_mem
        (List.mem_cons_of_mem _ (List.mem_map.mpr ⟨p, hp, rfl⟩))
        (by simp [Event.isFetchFor])
    have h2 : 1 ≤ ((checkForUpdates
        (ServiceState.mk s.intervalId (some now1) [])
        cfg projects env now2).2).countP (Event.isFetchFor p.folderPath) :=
      countP_ge_one_of_mem
        (checkForUpdates_fetch_mem _ cfg projects env now2 p hp)
        (by simp [Event.isFetchFor])
    omega
  · intro hf
    rw [List.countP_append, List.countP_append]
    have h2 : 1 ≤ ((checkForUpdates
        (ServiceState.mk s.intervalId (some now1) [])
        cfg projects env now2).2).countP (Event.isRevListFor p.folderPath) :=
      countP_ge_one_of_mem
        (checkForUpdates_revList_mem _ cfg projects env now2 p hp hf)
        (by simp [Event.isRevListFor])
    have h3 : 1 ≤ ((cycleFinish (checkForUpdates
        (ServiceState.mk s.intervalId (some now1) [])
        cfg projects env now2).1 env
        (PendingCycle.mk cfg (eligibleProjects env projects))).2).countP
        (Event.isRevListFor p.folderPath) := by
      have hm3 : Event.revListOp p.folderPath ∈ (cycleFinish (checkForUpdates
          (ServiceState.mk s.intervalId (some now1) [])
          cfg projects env now2).1 env
          (PendingCycle.mk cfg (eligibleProjects env projects))).2 := by
        rw [cycleFinish_trace]
        exact List.mem_append_left _ (List.mem_append_left _
          (runTasks_revList_mem env cfg _ _ p hp hf))
      exact countP_ge_one_of_mem hm3 (by simp [Event.isRevListFor])
    omega

/-- A run of the amended C1 on a concrete in-flight overlap. -/
theorem claim1_witness :
    2 ≤ (doubleInvocation ServiceState.initial notifyCfg [projD] envBehind 1 2).2.countP
        (Event.isFetchFor projD.folderPath) ∧
    (envBehind.fetch projD.folderPath = Except.ok () →
      2 ≤ (doubleInvocation ServiceState.initial notifyCfg [projD] envBehind 1 2).2.countP
        (Event.isRevListFor projD.folderPath)) :=
  claim1_no_reentry_guard ServiceState.initial notifyCfg [projD] envBehind 1 2
    projD (by decide)

/-! ### C2 -/

/-- C2 is false on the code: with `autoMerge = true`, a project found
3 behind whose pull fulfils does receive exactly one registry timestamp
update, but it is NOT absent from the pending set at the end of the
cycle — `pullProject` never removes it. -/
theorem claim2_counterexample :
    "D" ∈ (checkForUpdates ServiceState.initial mergeCfg [projD] envBehind 7).1.projectsWithUpdates ∧
    (checkForUpdates ServiceState.initial mergeCfg [projD] envBehind 7).1.projectsWithUpdates = ["D"] ∧
    (checkForUpdates ServiceState.initial mergeCfg [projD] envBehind 7).2.countP
      (Event.isRegistryFor "D") = 1 := by
  decide

/-- C2 (amended): with `autoMerge = true`, an eligible project whose
check reports it behind and whose pull fulfils gets exactly one registry
timestamp update in the cycle, and it REMAINS in the pending-updates set
at the end of that cycle (the merged project is kept and listed in the
cycle's aggregate notification). -/
theorem claim2_automerge_keeps_pending (s : ServiceState)
    (cfg : AutoSyncConfig) (projects : List Project) (env : Env) (now : Nat)
    (p : Project) (hm : cfg.autoMerge = true)
    (hp : p ∈ eligibleProjects env projects)
    (hchk : (checkProjectForUpdatesResult env p.folderPath).1 = true)
    (hpull : env.pullOk p.folderPath = true)
    (huniq : ∀ q ∈ eligibleProjects env projects, q.name = p.name → q = p)
    (hnodup : (eligibleProjects env projects).Nodup) :
    p.name ∈ (checkForUpdates s cfg projects env now).1.projectsWithUpdates ∧
    (checkForUpdates s cfg projects env now).2.countP
      (Event.isRegistryFor p.name) = 1 := by
  constructor
  · rw [checkForUpdates_state]
    exact (runTasks_mem_set env cfg _ [] p.name).mpr
      (Or.inr ⟨p, hp, hchk, rfl⟩)
  · rw [checkForUpdates_trace s cfg projects env now
      (eligible_isEmpty_false hp), List.countP_append, cycleFinish_trace,
      List.countP_append, List.countP_append]
    have hbegin : (Event.logMessage ("Checking " ++
        toString (eligibleProjects env projects).length ++
        " Git projects for updates...") ::
        (eligibleProjects env projects).map
          (fun p => Event.fetchOp p.folderPath)).countP
        (Event.isRegistryFor p.name) = 0 := by
      rw [List.countP_eq_zero]
      intro e he
      rcases List.mem_cons.mp he with rfl | he
      · simp [Event.isRegistryFor]
      · rcases List.mem_map.mp he with ⟨q, _, rfl⟩
        simp [Event.isRegistryFor]
    dsimp only
    rw [runTasks_countP_registry]
    have hpred : ∀ q ∈ eligibleProjects env projects,
        ((checkProjectForUpdatesResult env q.folderPath).1 && cfg.autoMerge
          && env.pullOk q.folderPath && (q.name == p.name) : Bool)
          = (q == p) := by
      intro q hq
      by_cases hqp : q = p
      · subst hqp
        simp [hchk, hm, hpull]
      · have hname : (q.name == p.name) = false := by
          cases hx : (q.name == p.name)
          · rfl
          · exact absurd (huniq q hq (by simpa using hx)) hqp
        have hqpb : (q == p) = false := by simpa using hqp
        simp [hname, hqpb]
    have hrw : (eligibleProjects env projects).countP
        (fun q => (checkProjectForUpdatesResult env q.folderPath).1
          && cfg.autoMerge && env.pullOk q.folderPath && (q.name == p.name))
        = (eligibleProjects env projects).countP (fun q => q == p) :=
      List.countP_congr (fun x hx => by rw [hpred x hx])
    have hcnt : (eligibleProjects env projects).countP (fun q => q == p) = 1 :=
      List.count_eq_one_of_mem hnodup hp
    rw [hbegin, hrw, hcnt]
    have hif : (List.countP (Event.isRegistryFor p.name)
        (if 0 < (runTasks env cfg (eligibleProjects env projects) []).2.1
            ∧ cfg.notifyOnUpdates = true then
          [notifyUpdatesAvailable
            (runTasks env cfg (eligibleProjects env projects) []).1
            (runTasks env cfg (eligibleProjects env projects) []).2.1
            cfg.autoMerge]
        else [])) = 0 := by
      split
      · simp [List.countP_cons, notifyUpdatesAvailable_not_registry]
      · rfl
    rw [hif]
    rfl

/-- A run of the amended C2 on the concrete auto-merge scenario. -/
theorem claim2_witness :
    "D" ∈ (checkForUpdates ServiceState.initial mergeCfg [projD] envBehind 7).1.projectsWithUpdates ∧
    (checkForUpdates ServiceState.initial mergeCfg [projD] envBehind 7).2.countP
      (Event.isRegistryFor "D") = 1 :=
  claim2_automerge_keeps_pending ServiceState.initial mergeCfg [projD]
    envBehind 7 projD (by decide) (by decide) (by decide) (by decide)
    (by decide) (by decide)

/-! ### C3 -/

/-- C3 is false on the code: there is no stale-cycle guard.  Starting a
cycle, calling `stop()` before it completes, then letting it complete
leaves the late cycle's findings in the pending-updates set — it is not
empty. -/
theorem claim3_counterexample :
    ¬ ((stopDuringCycle (ServiceState.mk (some 0) none []) (TimerSys.mk 1 [0])
        notifyCfg [projD] envBehind 5).1.projectsWithUpdates = []) := by
  decide

/-- C3 (amended): `stop()` during an in-flight cycle cancels the timer
and the late cycle never re-arms it (the handle stays `none`), but the
late cycle's results ARE applied when it completes: every project it
found behind ends up in the pending-updates set. -/
theorem claim3_late_results_applied (s : ServiceState) (ts : TimerSys)
    (cfg : AutoSyncConfig) (projects : List Project) (env : Env) (now : Nat)
    (p : Project) (hp : p ∈ eligibleProjects env projects)
    (hchk : (checkProjectForUpdatesResult env p.folderPath).1 = true) :
    (stopDuringCycle s ts cfg projects env now).1.intervalId = none ∧
    p.name ∈ (stopDuringCycle s ts cfg projects env now).1.projectsWithUpdates := by
  have hne := eligible_isEmpty_false hp
  unfold stopDuringCycle cycleBegin
  simp only [hne, Bool.false_eq_true, if_neg, not_false_iff]
  rw [stop_state, cycleFinish_state]
  constructor
  · rfl
  · dsimp only
    exact (runTasks_mem_set env cfg _ [] p.name).mpr
      (Or.inr ⟨p, hp, hchk, rfl⟩)

/-- A run of the amended C3 on the concrete stop-during-cycle
scenario. -/
theorem claim3_witness :
    (stopDuringCycle (ServiceState.mk (some 0) none []) (TimerSys.mk 1 [0])
      notifyCfg [projD] envBehind 5).1.intervalId = none ∧
    "D" ∈ (stopDuringCycle (ServiceState.mk (some 0) none [])
      (TimerSys.mk 1 [0]) notifyCfg [projD] envBehind 5).1.projectsWithUpdates :=
  claim3_late_results_applied (ServiceState.mk (some 0) none [])
    (TimerSys.mk 1 [0]) notifyCfg [projD] envBehind 5 projD
    (by decide) (by decide)

/-! ### C4 -/

/-- C4 is false on the code: `stop()` neither empties
`projectsWithUpdates` nor clears `lastCheckTime`. -/
theorem claim4_counterexample :
    ¬ ((stop (ServiceState.mk (some 0) (some 5) ["A"])
          (TimerSys.mk 1 [0])).1.projectsWithUpdates = [] ∧
       (stop (ServiceState.mk (some 0) (some 5) ["A"])
          (TimerSys.mk 1 [0])).1.lastCheckTime = none) := by
  decide

/-- C4 (amended): after `stop()` the periodic timer is cancelled — the
handle is dropped and the armed id is no longer active — but the
pending-updates set and `lastCheckTime` are NOT reset: both keep their
previous values. -/
theorem claim4_stop_cancels_but_keeps_state (s : ServiceState)
    (ts : TimerSys) :
    (stop s ts).1.intervalId = none ∧
    (stop s ts).1.projectsWithUpdates = s.projectsWithUpdates ∧
    (stop s ts).1.lastCheckTime = s.lastCheckTime ∧
    (∀ id, s.intervalId = some id → ts.active.Nodup →
      id ∉ (stop s ts).2.1.active) := by
  refine ⟨by rw [stop_state], by rw [stop_state], by rw [stop_state], ?_⟩
  intro id hid hnd
  unfold stop
  simp only [hid]
  intro hmem
  exact ((List.Nodup.mem_erase_iff hnd).mp hmem).1 rfl

/-- A run of the amended C4 on a concrete armed, non-empty state. -/
theorem claim4_witness :
    (stop (ServiceState.mk (some 0) (some 5) ["A"])
      (TimerSys.mk 1 [0])).1.intervalId = none ∧
    (stop (ServiceState.mk (some 0) (some 5) ["A"])
      (TimerSys.mk 1 [0])).1.projectsWithUpdates = ["A"] ∧
    (stop (ServiceState.mk (some 0) (some 5) ["A"])
      (TimerSys.mk 1 [0])).1.lastCheckTime = some 5 ∧
    0 ∉ (stop (ServiceState.mk (some 0) (some 5) ["A"])
      (TimerSys.mk 1 [0])).2.1.active :=
  have h := claim4_stop_cancels_but_keeps_state
    (ServiceState.mk (some 0) (some 5) ["A"]) (TimerSys.mk 1 [0])
  ⟨h.1, h.2.1, h.2.2.1, h.2.2.2 0 rfl (by decide)⟩

namespace AutoSyncService

/-- A rejected pull surfaces a `showErrorMessage` naming the project. -/
lemma pullProject_errorMsg_mem (env : Env) (path name e : String)
    (he : env.pull path = Except.error e) :
    Event.errorMsg ("Failed to auto-sync " ++ name ++ ": " ++ e) ∈
      pullProject env path name := by
  unfold pullProject
  rw [he]
  simp

end AutoSyncService

/-! ### C5 -/

/-- C5: per-project git failures are isolated, never propagated: every
eligible project is fetched no matter what the adapter does to the
others, the cycle always runs to completion (final status-bar repaint),
a fetch or rev-list rejection is converted into `hasUpdate = false` plus
a logged warning, and a pull rejection surfaces an error message without
aborting the cycle. -/
theorem claim5_failure_isolation (s : ServiceState) (cfg : AutoSyncConfig)
    (projects : List Project) (env : Env) (now : Nat) :
    (∀ p ∈ eligibleProjects env projects,
      Event.fetchOp p.folderPath ∈ (checkForUpdates s cfg projects env now).2) ∧
    Event.statusBarUpdate ∈ (checkForUpdates s cfg projects env now).2 ∧
    (∀ p ∈ eligibleProjects env projects,
      ((∃ e, env.fetch p.folderPath = Except.error e) ∨
       (∃ e, env.revList p.folderPath = Except.error e)) →
      (checkProjectForUpdatesResult env p.folderPath).1 = false ∧
      ∃ m, Event.logError m ∈ (checkForUpdates s cfg projects env now).2) ∧
    (∀ p ∈ eligibleProjects env projects,
      (checkProjectForUpdatesResult env p.folderPath).1 = true →
      cfg.autoMerge = true →
      ∀ e, env.pull p.folderPath = Except.error e →
      ∃ m, Event.errorMsg m ∈ (checkForUpdates s cfg projects env now).2) := by
  refine ⟨?_, checkForUpdates_statusBar_mem s cfg projects env now, ?_, ?_⟩
  · intro p hp
    exact checkForUpdates_fetch_mem s cfg projects env now p hp
  · intro p hp hfail
    rcases checkResult_fail env p.folderPath hfail with ⟨h1, m, hm⟩
    exact ⟨h1, m, checkForUpdates_task_event_mem s cfg projects env now p hp _
      (projectTask_events_check_sub env cfg p [] _ hm)⟩
  · intro p hp hchk hmerge e he
    refine ⟨"Failed to auto-sync " ++ p.name ++ ": " ++ e, ?_⟩
    exact checkForUpdates_task_event_mem s cfg projects env now p hp _
      (projectTask_events_pull_sub env cfg p [] hchk hmerge _
        (pullProject_errorMsg_mem env p.folderPath p.name e he))

/-- Environment in which A's fetch rejects and B's pull rejects. -/
def failEnv : Env where
  gitDirExists := fun _ => true
  fetch := fun p => if p == "repoA" then Except.error "network down"
                    else Except.ok ()
  revList := fun _ => Except.ok "1"
  pull := fun p => if p == "repoB" then Except.error "merge conflict"
                   else Except.ok ()

/-- A run of C5 on a cycle where one project's fetch rejects and
another's pull rejects. -/
theorem claim5_witness :
    Event.fetchOp "repoB" ∈
      (checkForUpdates ServiceState.initial mergeCfg [projA, projB] failEnv 3).2 ∧
    Event.statusBarUpdate ∈
      (checkForUpdates ServiceState.initial mergeCfg [projA, projB] failEnv 3).2 ∧
    ((checkProjectForUpdatesResult failEnv "repoA").1 = false ∧
      ∃ m, Event.logError m ∈
        (checkForUpdates ServiceState.initial mergeCfg [projA, projB] failEnv 3).2) ∧
    (∃ m, Event.errorMsg m ∈
      (checkForUpdates ServiceState.initial mergeCfg [projA, projB] failEnv 3).2) :=
  have h := claim5_failure_isolation ServiceState.initial mergeCfg
    [projA, projB] failEnv 3
  ⟨h.1 projB (by decide), h.2.1,
   h.2.2.1 projA (by decide) (Or.inl ⟨"network down", rfl⟩),
   h.2.2.2 projB (by decide) (by decide) rfl "merge conflict" rfl⟩

/-! ### C6 -/

/-- C6: with projects A (git-backed, 2 behind), B (git-backed, up to
date) and C (not git-backed), one cycle under `autoMerge = false`,
`notifyOnUpdates = true` ends with pending set exactly `{A}`, exactly
one aggregate notification whose text names the count 1, and zero
`git pull` starts. -/
theorem claim6_scenario :
    ((checkForUpdates ServiceState.initial notifyCfg [projA, projB, projC]
        demoEnv 7).1.projectsWithUpdates = ["A"]) ∧
    ((checkForUpdates ServiceState.initial notifyCfg [projA, projB, projC]
        demoEnv 7).2.countP Event.isAggregate = 1) ∧
    (Event.aggregateNotify "📥 1 project(s) have updates: A" ∈
      (checkForUpdates ServiceState.initial notifyCfg [projA, projB, projC]
        demoEnv 7).2) ∧
    ((checkForUpdates ServiceState.initial notifyCfg [projA, projB, projC]
        demoEnv 7).2.countP Event.isPull = 0) := by
  decide

/-! ### C7 -/

/-- C7: whenever `notifyOnUpdates` is set and the cycle ends with a
non-empty pending set, the trace holds exactly one aggregate
notification; it is the `notifyUpdatesAvailable` message listing the
final pending set with a positive count, phrased by `autoMerge`. -/
theorem claim7_single_aggregate (s : ServiceState) (cfg : AutoSyncConfig)
    (projects : List Project) (env : Env) (now : Nat)
    (hn : cfg.notifyOnUpdates = true)
    (hne : (checkForUpdates s cfg projects env now).1.projectsWithUpdates ≠ []) :
    (checkForUpdates s cfg projects env now).2.countP Event.isAggregate = 1 ∧
    ∃ n, 0 < n ∧
      notifyUpdatesAvailable
        (checkForUpdates s cfg projects env now).1.projectsWithUpdates n
        cfg.autoMerge ∈ (checkForUpdates s cfg projects env now).2 := by
  have hset : (checkForUpdates s cfg projects env now).1.projectsWithUpdates
      = (runTasks env cfg (eligibleProjects env projects) []).1 := by
    rw [checkForUpdates_state]
  have hR : (runTasks env cfg (eligibleProjects env projects) []).1 ≠ [] := by
    rw [← hset]
    exact hne
  have hpos : 0 < (runTasks env cfg (eligibleProjects env projects) []).2.1 := by
    rcases Nat.eq_zero_or_pos
        (runTasks env cfg (eligibleProjects env projects) []).2.1 with h0 | h
    · exact absurd (runTasks_set_of_found_zero env cfg _ _ h0) hR
    · exact h
  have hemp : (eligibleProjects env projects).isEmpty = false := by
    cases h : eligibleProjects env projects with
    | nil =>
      exfalso
      apply hR
      rw [h]
      rfl
    | cons a l => rfl
  constructor
  · rw [checkForUpdates_trace s cfg projects env now hemp, List.countP_append,
      cycleFinish_trace, List.countP_append, List.countP_append]
    dsimp only
    have hb : (Event.logMessage ("Checking " ++
        toString (eligibleProjects env projects).length ++
        " Git projects for updates...") ::
        (eligibleProjects env projects).map
          (fun p => Event.fetchOp p.folderPath)).countP Event.isAggregate
        = 0 := by
      rw [List.countP_eq_zero]
      intro e he
      rcases List.mem_cons.mp he with rfl | he
      · simp [Event.isAggregate]
      · rcases List.mem_map.mp he with ⟨q, _, rfl⟩
        simp [Event.isAggregate]
    have hifx : (List.countP Event.isAggregate
        (if 0 < (runTasks env cfg (eligibleProjects env projects) []).2.1
            ∧ cfg.notifyOnUpdates = true then
          [notifyUpdatesAvailable
            (runTasks env cfg (eligibleProjects env projects) []).1
            (runTasks env cfg (eligibleProjects env projects) []).2.1
            cfg.autoMerge]
        else [])) = 1 := by
      rw [if_pos ⟨hpos, hn⟩]
      simp [List.countP_cons, notifyUpdatesAvailable_isAggregate]
    rw [hb, runTasks_countP_aggregate, hifx]
    rfl
  · refine ⟨(runTasks env cfg (eligibleProjects env projects) []).2.1,
      hpos, ?_⟩
    rw [hset, checkForUpdates_trace s cfg projects env now hemp]
    refine List.mem_append_right _ ?_
    rw [cycleFinish_trace]
    refine List.mem_append_left _ (List.mem_append_right _ ?_)
    dsimp only
    rw [if_pos ⟨hpos, hn⟩]
    exact List.mem_singleton.mpr rfl

/-- A run of C7 on the concrete notify-only scenario. -/
theorem claim7_witness :
    (checkForUpdates ServiceState.initial notifyCfg [projA, projB, projC]
      demoEnv 7).2.countP Event.isAggregate = 1 ∧
    ∃ n, 0 < n ∧
      notifyUpdatesAvailable
        (checkForUpdates ServiceState.initial notifyCfg [projA, projB, projC]
          demoEnv 7).1.projectsWithUpdates n notifyCfg.autoMerge ∈
        (checkForUpdates ServiceState.initial notifyCfg [projA, projB, projC]
          demoEnv 7).2 :=
  claim7_single_aggregate ServiceState.initial notifyCfg [projA, projB, projC]
    demoEnv 7 (by decide) (by decide)

/-! ### C8 -/

/-- C8: a disabled project, or one whose folder lacks a `.git` marker
at cycle time, is never in the checked (filtered) list; no name in the
final pending set can be its (when no eligible project shares its name)
and no git operation runs in its folder (when no eligible project
shares its folder). -/
theorem claim8_excluded (s : ServiceState) (cfg : AutoSyncConfig)
    (projects : List Project) (env : Env) (now : Nat) (p : Project)
    (hex : p.enabled = false ∨ env.gitDirExists p.folderPath = false) :
    p ∉ eligibleProjects env projects ∧
    ((∀ q ∈ eligibleProjects env projects, q.name ≠ p.name) →
      p.name ∉ (checkForUpdates s cfg projects env now).1.projectsWithUpdates) ∧
    ((∀ q ∈ eligibleProjects env projects, q.folderPath ≠ p.folderPath) →
      Event.fetchOp p.folderPath ∉ (checkForUpdates s cfg projects env now).2 ∧
      Event.revListOp p.folderPath ∉ (checkForUpdates s cfg projects env now).2 ∧
      Event.pullOp p.folderPath ∉ (checkForUpdates s cfg projects env now).2) := by
  refine ⟨?_, ?_, ?_⟩
  · intro hmem
    rcases List.mem_filter.mp hmem with ⟨_, hcond⟩
    rcases hex with h | h <;> simp [h] at hcond
  · intro hname hmem
    rw [checkForUpdates_state] at hmem
    rcases (runTasks_mem_set env cfg _ [] p.name).mp hmem with
      h | ⟨q, hq, _, hqn⟩
    · simp at h
    · exact hname q hq hqn
  · intro hpath
    refine ⟨fun hmem => ?_, fun hmem => ?_, fun hmem => ?_⟩
    · rcases checkForUpdates_fetch_origin s cfg projects env now _ hmem with
        ⟨q, hq, he⟩
      exact hpath q hq he
    · rcases checkForUpdates_revList_origin s cfg projects env now _ hmem with
        ⟨q, hq, he⟩
      exact hpath q hq he
    · rcases checkForUpdates_pull_origin s cfg projects env now _ hmem with
        ⟨q, hq, he⟩
      exact hpath q hq he

/-- Project E: disabled, although git-backed and behind under
`envBehind`. -/
def projE : Project := { name := "E", folderPath := "repoE", enabled := false }

/-- A run of C8 with a disabled project that is git-backed and 3
behind. -/
theorem claim8_witness :
    projE ∉ eligibleProjects envBehind [projE, projB] ∧
    "E" ∉ (checkForUpdates ServiceState.initial notifyCfg [projE, projB]
      envBehind 2).1.projectsWithUpdates ∧
    Event.fetchOp "repoE" ∉ (checkForUpdates ServiceState.initial notifyCfg
      [projE, projB] envBehind 2).2 ∧
    Event.revListOp "repoE" ∉ (checkForUpdates ServiceState.initial notifyCfg
      [projE, projB] envBehind 2).2 ∧
    Event.pullOp "repoE" ∉ (checkForUpdates ServiceState.initial notifyCfg
      [projE, projB] envBehind 2).2 :=
  have h := claim8_excluded ServiceState.initial notifyCfg [projE, projB]
    envBehind 2 projE (Or.inl rfl)
  ⟨h.1, h.2.1 (by decide), (h.2.2 (by decide)).1, (h.2.2 (by decide)).2.1,
   (h.2.2 (by decide)).2.2⟩

/-! ### C9 -/

/-- First `start()` on a fresh service (enabled, no startup cycle). -/
def firstStart : ServiceState × TimerSys × List Event :=
  start ServiceState.initial TimerSys.initial quietCfg [] demoEnv 0

/-- A second `start()` issued while the first one's timer is armed. -/
def secondStart : ServiceState × TimerSys × List Event :=
  start firstStart.1 firstStart.2.1 quietCfg [] demoEnv 1

/-- C9 is false on the code: a double `start()` reports nothing (no
error event is emitted), silently arms a second timer (two ids active),
and overwrites the handle, so the following `stop()` cancels only the
newer timer and leaks the first. -/
theorem claim9_counterexample :
    secondStart.2.2.countP Event.isErrorMessage = 0 ∧
    secondStart.2.1.active = [0, 1] ∧
    secondStart.1.intervalId = some 1 ∧
    ¬ ((stop secondStart.1 secondStart.2.1).2.1.active = []) ∧
    (stop secondStart.1 secondStart.2.1).2.1.active = [0] := by
  decide

/-- C9 (amended): `start()` performs no double-start detection and
reports no misuse: whenever the config enables the service it arms a
fresh timer unconditionally, appending it to the active registry, and
overwrites `intervalId`; a previously armed timer is never cleared by
this call and so stays active (leaked, since its handle is lost). -/
theorem claim9_double_start_leaks (s : ServiceState) (ts : TimerSys)
    (cfg : AutoSyncConfig) (projects : List Project) (env : Env) (now : Nat)
    (he : cfg.enabled = true) :
    (start s ts cfg projects env now).2.1.active = ts.active ++ [ts.nextId] ∧
    (start s ts cfg projects env now).1.intervalId = some ts.nextId ∧
    (∀ oldId, s.intervalId = some oldId → oldId ∈ ts.active →
      oldId ∈ (start s ts cfg projects env now).2.1.active) := by
  have hc : ¬ (cfg.enabled = false) := by
    rw [he]
    simp
  unfold start
  rw [if_neg hc]
  refine ⟨rfl, rfl, ?_⟩
  intro oldId h1 h2
  show oldId ∈ ts.active ++ [ts.nextId]
  exact List.mem_append_left _ h2

/-- A run of the amended C9 on a service whose timer 0 is armed. -/
theorem claim9_witness :
    (start (ServiceState.mk (some 0) none []) (TimerSys.mk 1 [0]) quietCfg []
      demoEnv 3).2.1.active = [0] ++ [1] ∧
    (start (ServiceState.mk (some 0) none []) (TimerSys.mk 1 [0]) quietCfg []
      demoEnv 3).1.intervalId = some 1 ∧
    0 ∈ (start (ServiceState.mk (some 0) none []) (TimerSys.mk 1 [0]) quietCfg []
      demoEnv 3).2.1.active :=
  have h := claim9_double_start_leaks (ServiceState.mk (some 0) none [])
    (TimerSys.mk 1 [0]) quietCfg [] demoEnv 3 rfl
  ⟨h.1, h.2.1, h.2.2 0 rfl (by decide)⟩

/-! ### C10 -/

/-- C10: `getProjectsWithUpdates()` is a pure read: it returns the
pending set, leaves the service state unchanged and performs no
operation (no git call, no notification, no registry write); the copy
it returns after any cycle is duplicate-free, matching `Set`
semantics. -/
theorem claim10_pure_read (s : ServiceState) (cfg : AutoSyncConfig)
    (projects : List Project) (env : Env) (now : Nat) :
    (getProjectsWithUpdates s).1 = s.projectsWithUpdates ∧
    (getProjectsWithUpdates s).2.1 = s ∧
    (getProjectsWithUpdates s).2.2 = [] ∧
    (getProjectsWithUpdates
      (checkForUpdates s cfg projects env now).1).1.Nodup := by
  refine ⟨rfl, rfl, rfl, ?_⟩
  rw [checkForUpdates_state]
  exact runTasks_nodup env cfg (eligibleProjects env projects) []
    List.nodup_nil
